import Mathlib

/-!
Verification of the cleaning and metrics pipeline of `facebookadsanalise.py`.

The script processes a pandas DataFrame of Facebook-Ads campaign rows:
`tratar_dados` (lines 57-96) drops columns, drops rows with missing values
and label-encodes the `gender` column; `calcular_metricas_demograficas`
(lines 108-151) adds the per-row `Engajamento` column, groups by gender and
derives `CPC`/`CPM`; `gerar_resumo_executivo` (lines 275-325) computes
overall totals, overall CTR and cost per conversion.

Numbers are modelled as exact rationals, with pandas/NumPy division-by-zero
semantics (inf, -inf, NaN) made explicit by the `Cell` type: the script runs
with `warnings.filterwarnings('ignore')`, so a zero denominator never raises,
it silently produces an IEEE special value.
-/

namespace FacebookAds

/-- A pandas/NumPy scalar cell: a finite number (idealised as an exact
rational), positive or negative infinity, NaN (which pandas also uses for a
missing value), or a string. -/
inductive Cell where
  | num (q : ℚ)
  | inf
  | neginf
  | nan
  | str (s : String)
deriving DecidableEq

/-- Division as pandas/NumPy perform it elementwise: a zero denominator does
not raise, it yields `inf`, `-inf` or `nan` according to the sign of the
numerator (IEEE-754 semantics; the script suppresses the RuntimeWarning). -/
def cellDiv : Cell → Cell → Cell
  | .num a, .num b =>
      if b = 0 then (if 0 < a then .inf else if a < 0 then .neginf else .nan)
      else .num (a / b)
  | .inf, .num b => if b < 0 then .neginf else .inf
  | .neginf, .num b => if b < 0 then .inf else .neginf
  | .num _, .inf => .num 0
  | .num _, .neginf => .num 0
  | _, _ => .nan

/-- Multiplication of a cell by a finite scalar constant (IEEE semantics on
the special values). -/
def cellMulQ : Cell → ℚ → Cell
  | .num a, k => .num (a * k)
  | .inf, k => if 0 < k then .inf else if k < 0 then .neginf else .nan
  | .neginf, k => if 0 < k then .neginf else if k < 0 then .inf else .nan
  | _, _ => .nan

/-- Addition of two cells (IEEE semantics on the special values). -/
def cellAdd : Cell → Cell → Cell
  | .num a, .num b => .num (a + b)
  | .num _, .inf => .inf
  | .inf, .num _ => .inf
  | .inf, .inf => .inf
  | .num _, .neginf => .neginf
  | .neginf, .num _ => .neginf
  | .neginf, .neginf => .neginf
  | _, _ => .nan

/-- Sum of a list of cells, as NumPy reduces a column. -/
def cellSum (cs : List Cell) : Cell :=
  cs.foldr cellAdd (Cell.num 0)

/-- Mean of a column as pandas `mean` computes it: NaN entries are skipped
(`skipna=True` is the pandas default), the rest are summed and divided by
their count; an all-NaN column yields NaN via the 0/0 division. -/
def cellMean (cs : List Cell) : Cell :=
  cellDiv (cellSum (cs.filter fun c => c ≠ Cell.nan))
          (Cell.num (cs.filter fun c => c ≠ Cell.nan).length)

/-- Round to the nearest integer, ties to the nearest even integer: the
rounding NumPy's `round` (hence pandas `Series.round`) uses. -/
def roundHalfEven (q : ℚ) : ℤ :=
  if Int.fract q < 1/2 then ⌊q⌋
  else if 1/2 < Int.fract q then ⌊q⌋ + 1
  else if 2 ∣ ⌊q⌋ then ⌊q⌋ else ⌊q⌋ + 1

/-- Pandas `Series.round(2)` on a cell: finite values are rounded to two
decimal places with ties to even; inf, -inf and NaN pass through. -/
def cellRound2 : Cell → Cell
  | .num q => .num ((roundHalfEven (q * 100) : ℚ) / 100)
  | c => c

/-- One cleaned campaign row, as `tratar_dados` delivers it to the metrics
code: the numeric columns of the CSV plus the label-encoded gender code.
Integer columns are modelled as integer-valued rationals. -/
structure Record where
  impressions : ℚ
  clicks : ℚ
  spent : ℚ
  total_conversion : ℚ
  gender : ℤ
  age : String
deriving DecidableEq

/-- A cleaned row after line 128 has run: the same row, now carrying the
`Engajamento` column. -/
structure AugRecord extends Record where
  engajamento : Cell
deriving DecidableEq

/-- Line 128: `dados["Engajamento"] = (dados["clicks"] / dados["impressions"]) * 100`,
restricted to one row. -/
def engajamentoRate (r : Record) : Cell :=
  cellMulQ (cellDiv (Cell.num r.clicks) (Cell.num r.impressions)) 100

/-- Line 128 over the whole frame: every row gains the `Engajamento` column. -/
def computeEngagement (rs : List Record) : List AugRecord :=
  rs.map fun r => ⟨r, engajamentoRate r⟩

/-- The distinct gender codes of the frame in ascending order: the group keys
`groupby(["gender"])` (line 132) iterates over, with its default `sort=True`. -/
def genderKeys (rs : List AugRecord) : List ℤ :=
  ((rs.map fun r => r.gender).dedup).insertionSort fun a b => a ≤ b

/-- One row of the aggregated frame built on lines 132-148. -/
structure GroupRow where
  gender : ℤ
  impressions : ℚ
  clicks : ℚ
  engajamento : Cell
  total_conversion : ℚ
  spent : ℚ
  CPC : Cell
  CPM : Cell
deriving DecidableEq

/-- The aggregated row for one gender code `g` (lines 132-148): sums of
`impressions`, `clicks`, `total_conversion` and `spent`, the pandas mean of
`Engajamento`, then `CPC = (spent / clicks).round(2)` and
`CPM = ((spent / impressions) * 1000).round(2)`. -/
def groupSummary (rs : List AugRecord) (g : ℤ) : GroupRow :=
  let grp := rs.filter fun r => r.gender = g
  let imprSum := (grp.map fun r => r.impressions).sum
  let clicksSum := (grp.map fun r => r.clicks).sum
  let spentSum := (grp.map fun r => r.spent).sum
  { gender := g
    impressions := imprSum
    clicks := clicksSum
    engajamento := cellMean (grp.map fun r => r.engajamento)
    total_conversion := (grp.map fun r => r.total_conversion).sum
    spent := spentSum
    CPC := cellRound2 (cellDiv (Cell.num spentSum) (Cell.num clicksSum))
    CPM := cellRound2 (cellMulQ (cellDiv (Cell.num spentSum) (Cell.num imprSum)) 1000) }

/-- Lines 132-148: `groupby(["gender"]).agg({...}).reset_index()` followed by
the `CPC` and `CPM` column assignments — one aggregated row per distinct
gender code, in ascending key order. -/
def aggregateByGender (rs : List AugRecord) : List GroupRow :=
  (genderKeys rs).map (groupSummary rs)

/-- Lines 126-151, the whole of `calcular_metricas_demograficas`: add the
`Engajamento` column, then aggregate by gender. -/
def calcular_metricas_demograficas (rs : List Record) : List GroupRow :=
  aggregateByGender (computeEngagement rs)

/-- The overall figures printed by `gerar_resumo_executivo` (lines 291-303). -/
structure ResumoGeral where
  total_impressoes : ℚ
  total_cliques : ℚ
  total_gastos : ℚ
  total_conversoes : ℚ
  ctr_geral : Cell
  custo_por_conversao : Cell
deriving DecidableEq

/-- Lines 291-303: column totals, `ctr_geral = (total_cliques / total_impressoes) * 100`
and the cost per conversion `total_gastos / total_conversoes`, both divisions
performed with NumPy scalar semantics (no guard in the source). -/
def gerar_resumo_executivo (rs : List Record) : ResumoGeral :=
  let ti := (rs.map fun r => r.impressions).sum
  let tc := (rs.map fun r => r.clicks).sum
  let tg := (rs.map fun r => r.spent).sum
  let tv := (rs.map fun r => r.total_conversion).sum
  { total_impressoes := ti
    total_cliques := tc
    total_gastos := tg
    total_conversoes := tv
    ctr_geral := cellMulQ (cellDiv (Cell.num tc) (Cell.num ti)) 100
    custo_por_conversao := cellDiv (Cell.num tg) (Cell.num tv) }

/-- The exceptions the pandas/sklearn calls in `tratar_dados` can actually
raise: `KeyError` from `DataFrame.drop` (default `errors='raise'`) or a
missing column lookup, and `TypeError` from NumPy sorting a mixed-type
column inside `LabelEncoder.fit_transform`. -/
inductive PdError where
  | keyError
  | typeError
deriving DecidableEq

/-- A pandas DataFrame: a list of column names and the rows, each row holding
one cell per column. -/
structure DataFrame where
  cols : List String
  rows : List (List Cell)
deriving DecidableEq

deriving instance DecidableEq for Except

/-- Line 79: the columns `tratar_dados` removes. -/
def colunas_remover : List String := ["reporting_start", "reporting_end", "fb_campaign_id"]

/-- Line 80: `drop(columns=colunas_remover, inplace=True)` with the pandas
default `errors='raise'`: a `KeyError` if any listed column is absent,
otherwise the listed columns and their cells are removed. -/
def dropColumns (df : DataFrame) (names : List String) : Except PdError DataFrame :=
  if ∀ n ∈ names, n ∈ df.cols then
    .ok ⟨df.cols.filter fun c => c ∉ names,
         df.rows.map fun row => ((df.cols.zip row).filter fun p => p.1 ∉ names).map Prod.snd⟩
  else .error .keyError

/-- Line 85: `dropna(inplace=True)` — every row containing a NaN cell is
dropped whole. -/
def dropna (df : DataFrame) : DataFrame :=
  ⟨df.cols, df.rows.filter fun row => Cell.nan ∉ row⟩

/-- Replace the cell at position `i` of a row, leaving the rest alone. -/
def modifyIdx (f : Cell → Cell) : ℕ → List Cell → List Cell
  | _, [] => []
  | 0, c :: cs => f c :: cs
  | n + 1, c :: cs => c :: modifyIdx f n cs

/-- Position of the first occurrence of `c` in a class list (the code
`LabelEncoder.transform` assigns to value `c`). -/
def idxOf (c : Cell) : List Cell → ℕ
  | [] => 0
  | d :: ds => if d = c then 0 else idxOf c ds + 1

/-- The string carried by a string cell, if any. -/
def cellStr? : Cell → Option String
  | .str s => some s
  | _ => none

/-- The rational carried by a finite numeric cell, if any. -/
def cellNum? : Cell → Option ℚ
  | .num q => some q
  | _ => none

/-- Codepoint sequence of a string: the sort key NumPy compares strings by
(lexicographic on code points). -/
def strKey (s : String) : List ℕ :=
  s.data.map Char.toNat

/-- The `classes_` a fitted `LabelEncoder` holds for the column: `np.unique`
of the values, i.e. the distinct values in ascending order. Sorting a column
mixing strings and numbers raises a `TypeError`. -/
def uniqueClasses (vals : List Cell) : Except PdError (List Cell) :=
  if vals.all fun c => (cellStr? c).isSome then
    .ok (((vals.filterMap cellStr?).dedup.insertionSort fun a b => strKey a ≤ strKey b).map Cell.str)
  else if vals.all fun c => (cellNum? c).isSome then
    .ok (((vals.filterMap cellNum?).dedup.insertionSort fun a b => a ≤ b).map Cell.num)
  else .error .typeError

/-- Line 92: `dados_tratados['gender'] = encoder.fit_transform(dados_tratados['gender'])`.
The column lookup raises `KeyError` when `gender` is absent; otherwise every
gender cell is replaced by its index in the encoder's sorted `classes_`. -/
def labelEncodeGender (df : DataFrame) : Except PdError DataFrame :=
  match df.cols.findIdx? fun c => c = "gender" with
  | none => .error .keyError
  | some i =>
    match uniqueClasses (df.rows.filterMap fun row => row.get? i) with
    | .error e => .error e
    | .ok classes =>
        .ok ⟨df.cols, df.rows.map (modifyIdx (fun c => Cell.num (idxOf c classes)) i)⟩

/-- Lines 57-96, `tratar_dados` on a non-`None` frame: copy (so the caller's
frame is untouched), drop the three unused columns, drop incomplete rows,
label-encode `gender`. Any exception of a step propagates. -/
def tratar_dados (df : DataFrame) : Except PdError DataFrame :=
  match dropColumns df colunas_remover with
  | .error e => .error e
  | .ok df1 => labelEncodeGender (dropna df1)

/-- Line 128 as the state change it performs on the caller's frame:
`dados["Engajamento"] = (dados["clicks"] / dados["impressions"]) * 100`
looks up the two columns (`KeyError` if absent) and assigns the result to
the `Engajamento` column of `dados` itself — overwriting it when present,
appending it otherwise. The returned frame is the caller's `dados` after
`calcular_metricas_demograficas` has run. -/
def addEngajamento (df : DataFrame) : Except PdError DataFrame :=
  match df.cols.findIdx? fun c => c = "clicks", df.cols.findIdx? fun c => c = "impressions" with
  | some i, some j =>
      let newCell := fun row : List Cell =>
        cellMulQ (cellDiv (row.getD i Cell.nan) (row.getD j Cell.nan)) 100
      match df.cols.findIdx? fun c => c = "Engajamento" with
      | some k => .ok ⟨df.cols, df.rows.map fun row => modifyIdx (fun _ => newCell row) k row⟩
      | none => .ok ⟨df.cols ++ ["Engajamento"], df.rows.map fun row => row ++ [newCell row]⟩
  | _, _ => .error .keyError

/-- Modelled from the spec: "rounded to 2 decimal places using standard
half-up rounding" — the rounding the spec asserts for `CPC`/`CPM`, stated
here only to compare it against the `.round(2)` of the source (which ties
to even). -/
def round2HalfUpSpec (q : ℚ) : ℚ :=
  (⌊q * 100 + 1/2⌋ : ℚ) / 100

/-- Half-even rounding to two decimal places as a plain rational function
(what `cellRound2` does on finite cells). -/
def round2 (q : ℚ) : ℚ :=
  (roundHalfEven (q * 100) : ℚ) / 100

/-! Concrete inputs used to exercise the pipeline. -/

/-- The worked example of the spec: Female rows (100,10,5) and (200,20,10),
Male row (300,15,9). -/
def exemploRegistros : List Record :=
  [⟨100, 10, 5, 0, 0, "30-34"⟩, ⟨200, 20, 10, 0, 0, "35-39"⟩, ⟨300, 15, 9, 0, 1, "30-34"⟩]

/-- Two rows of one gender whose mean engagement (5.5) differs from the
pooled ratio 100*13/400 = 3.25. -/
def doisRegistros : List Record :=
  [⟨100, 10, 0, 0, 0, "30-34"⟩, ⟨300, 3, 0, 0, 0, "35-39"⟩]

/-- One row summing to spent 1 and clicks 8, so CPC = 0.125, a rounding tie. -/
def registroCpc : List Record := [⟨100, 8, 1, 0, 0, "30-34"⟩]

/-- One row with zero impressions, positive clicks, positive spend and zero
conversions. -/
def registroZero : List Record := [⟨0, 5, 1, 0, 0, "30-34"⟩]

/-- A raw frame whose gender column contains the unrecognised value "other". -/
def quadroOutro : DataFrame :=
  ⟨["reporting_start", "reporting_end", "fb_campaign_id", "gender"],
   [[.num 1, .num 2, .num 3, .str "male"],
    [.num 1, .num 2, .num 3, .str "female"],
    [.num 1, .num 2, .num 3, .str "other"]]⟩

/-- What `tratar_dados` makes of `quadroOutro`: "other" silently becomes a
third category with code 2. -/
def quadroOutroLimpo : DataFrame :=
  ⟨["gender"], [[.num 1], [.num 0], [.num 2]]⟩

/-- A raw frame whose only gender value is "male". -/
def quadroMasculino : DataFrame :=
  ⟨["reporting_start", "reporting_end", "fb_campaign_id", "gender"],
   [[.num 1, .num 2, .num 3, .str "male"]]⟩

/-- A raw frame with both gender values, the male row first, plus a row with
a missing cell. -/
def quadroBruto : DataFrame :=
  ⟨["reporting_start", "reporting_end", "fb_campaign_id", "impressions", "gender"],
   [[.num 1, .num 2, .num 3, .num 200, .str "male"],
    [.num 1, .num 2, .num 3, .num 100, .str "female"],
    [.num 1, .num 2, .num 3, .nan, .str "female"]]⟩

/-- What `tratar_dados` makes of `quadroBruto`. -/
def quadroBrutoLimpo : DataFrame :=
  ⟨["impressions", "gender"], [[.num 200, .num 1], [.num 100, .num 0]]⟩

/-- A cleaned-style frame handed to `calcular_metricas_demograficas`. -/
def quadroLimpo : DataFrame :=
  ⟨["impressions", "clicks", "gender"], [[.num 200, .num 10, .num 0]]⟩

/-- The state of the caller's `quadroLimpo` after line 128 has run: the same
frame with the `Engajamento` column appended. -/
def quadroLimpoDepois : DataFrame :=
  ⟨["impressions", "clicks", "gender", "Engajamento"],
   [[.num 200, .num 10, .num 0, .num 5]]⟩

/-! Helper lemmas about the cell arithmetic and the grouping machinery. -/

theorem engajamentoRate_of_ne_zero (r : Record) (h : r.impressions ≠ 0) :
    engajamentoRate r = Cell.num (100 * r.clicks / r.impressions) := by
  unfold engajamentoRate
  simp only [cellDiv]
  rw [if_neg h]
  simp only [cellMulQ]
  congr 1
  ring

theorem engajamentoRate_inf (r : Record) (h0 : r.impressions = 0) (hc : 0 < r.clicks) :
    engajamentoRate r = Cell.inf := by
  unfold engajamentoRate
  rw [h0]
  simp only [cellDiv]
  rw [if_pos trivial, if_pos hc]
  simp only [cellMulQ]
  norm_num

theorem engajamentoRate_nan (r : Record) (h0 : r.impressions = 0) (hc : r.clicks = 0) :
    engajamentoRate r = Cell.nan := by
  unfold engajamentoRate
  rw [h0, hc]
  norm_num [cellDiv, cellMulQ]

theorem dropColumns_ok_cols {df df2 : DataFrame} {names : List String}
    (h : dropColumns df names = Except.ok df2) :
    df2.cols = df.cols.filter fun c => c ∉ names := by
  unfold dropColumns at h
  split at h
  · cases h
    rfl
  · cases h

theorem labelEncodeGender_cols {df df2 : DataFrame}
    (h : labelEncodeGender df = Except.ok df2) : df2.cols = df.cols := by
  unfold labelEncodeGender at h
  split at h
  · cases h
  · split at h
    · cases h
    · cases h
      rfl

theorem cellSum_map_num (l : List ℚ) : cellSum (l.map Cell.num) = Cell.num l.sum := by
  induction l with
  | nil => rfl
  | cons q l ih =>
      simp only [List.map_cons, cellSum, List.foldr_cons] at ih ⊢
      rw [ih]
      simp [cellAdd]

theorem filter_map_num_ne_nan (l : List ℚ) :
    (l.map Cell.num).filter (fun c => c ≠ Cell.nan) = l.map Cell.num := by
  apply List.filter_eq_self.mpr
  intro c hc
  rcases List.mem_map.mp hc with ⟨q, _, rfl⟩
  simp

theorem cellMean_map_num (l : List ℚ) (h : l ≠ []) :
    cellMean (l.map Cell.num) = Cell.num (l.sum / l.length) := by
  have hn : ((l.length : ℚ)) ≠ 0 := by
    exact_mod_cast (List.length_pos.mpr h).ne'
  unfold cellMean
  rw [filter_map_num_ne_nan, cellSum_map_num, List.length_map]
  simp [cellDiv, hn]

theorem cellSum_nums (cs : List Cell) (h : ∀ c ∈ cs, ∃ q, c = Cell.num q) :
    ∃ s, cellSum cs = Cell.num s := by
  induction cs with
  | nil => exact ⟨0, rfl⟩
  | cons c cs ih =>
      obtain ⟨q, rfl⟩ := h c (List.mem_cons_self _ _)
      obtain ⟨s, hs⟩ := ih fun c hc => h c (List.mem_cons_of_mem _ hc)
      refine ⟨q + s, ?_⟩
      simp only [cellSum, List.foldr_cons] at hs ⊢
      rw [hs]
      rfl

theorem cellSum_with_inf (cs : List Cell)
    (hall : ∀ c ∈ cs, c = Cell.inf ∨ ∃ q, c = Cell.num q)
    (hin : Cell.inf ∈ cs) : cellSum cs = Cell.inf := by
  induction cs with
  | nil => cases hin
  | cons c cs ih =>
      simp only [cellSum, List.foldr_cons]
      by_cases hmem : Cell.inf ∈ cs
      · have hsum : List.foldr cellAdd (Cell.num 0) cs = Cell.inf :=
          ih (fun d hd => hall d (List.mem_cons_of_mem _ hd)) hmem
        rw [hsum]
        rcases hall c (List.mem_cons_self _ _) with rfl | ⟨q, rfl⟩ <;> rfl
      · have hc : c = Cell.inf := by
          rcases List.mem_cons.mp hin with h | h
          · exact h.symm
          · exact absurd h hmem
        subst hc
        have hnums : ∀ d ∈ cs, ∃ q, d = Cell.num q := by
          intro d hd
          rcases hall d (List.mem_cons_of_mem _ hd) with rfl | hq
          · exact absurd hd hmem
          · exact hq
        obtain ⟨s, hs⟩ := cellSum_nums cs hnums
        simp only [cellSum] at hs
        rw [hs]
        rfl

theorem cellMean_with_inf (cs : List Cell)
    (hall : ∀ c ∈ cs, c = Cell.inf ∨ (∃ q, c = Cell.num q) ∨ c = Cell.nan)
    (hin : Cell.inf ∈ cs) : cellMean cs = Cell.inf := by
  have hkin : Cell.inf ∈ cs.filter fun c => c ≠ Cell.nan :=
    List.mem_filter.mpr ⟨hin, by simp⟩
  have hkall : ∀ c ∈ cs.filter (fun c => c ≠ Cell.nan), c = Cell.inf ∨ ∃ q, c = Cell.num q := by
    intro c hc
    obtain ⟨hmem, hne⟩ := List.mem_filter.mp hc
    rcases hall c hmem with h | h | rfl
    · exact Or.inl h
    · exact Or.inr h
    · simp at hne
  have hsum := cellSum_with_inf _ hkall hkin
  simp only [cellMean, hsum, cellDiv]
  rw [if_neg (not_lt.mpr (by positivity))]

theorem perm_pair_cases {α : Type} {a b : α} {l : List α} (h : l.Perm [a, b]) :
    l = [a, b] ∨ l = [b, a] := by
  have hlen := h.length_eq
  obtain _ | ⟨x, _ | ⟨y, _ | ⟨z, t⟩⟩⟩ := l
  · simp at hlen
  · simp at hlen
  · have hx : x = a ∨ x = b := by
      have hm := h.mem_iff.mp (show x ∈ [x, y] by simp)
      simpa using hm
    rcases hx with rfl | rfl
    · left
      have hy := List.perm_singleton.mp h.cons_inv
      simp [hy]
    · right
      have h2 : List.Perm (x :: [y]) (x :: [a]) := h.trans (List.Perm.swap x a [])
      have hy := List.perm_singleton.mp h2.cons_inv
      simp [hy]
  · simp at hlen

theorem flatMap_filter_key_perm {α κ : Type} [DecidableEq κ] (key : α → κ) :
    ∀ (keys : List κ) (l : List α), keys.Nodup → (∀ a ∈ l, key a ∈ keys) →
      (keys.flatMap fun g => l.filter fun a => key a = g).Perm l := by
  intro keys
  induction keys with
  | nil =>
      intro l _ hcov
      have hl : l = [] := List.eq_nil_iff_forall_not_mem.mpr fun a ha => by simpa using hcov a ha
      simp [hl]
  | cons g ks ih =>
      intro l hnd hcov
      rw [List.flatMap_cons]
      have hgks : g ∉ ks := (List.nodup_cons.mp hnd).1
      have hcongr : (ks.flatMap fun g2 => l.filter fun a => key a = g2)
          = ks.flatMap fun g2 => (l.filter fun a => key a ≠ g).filter fun a => key a = g2 := by
        apply List.flatMap_congr
        intro g2 hg2
        rw [List.filter_filter]
        apply List.filter_congr
        intro a _
        by_cases hag : key a = g2
        · have hne : key a ≠ g := by
            intro hg
            apply hgks
            rw [hg.symm.trans hag]
            exact hg2
          simp [hag]
          exact fun hgg => hne (hag.trans hgg)
        · simp [hag]
      have hcov2 : ∀ a ∈ l.filter (fun a => key a ≠ g), key a ∈ ks := by
        intro a ha
        obtain ⟨hmem, hne⟩ := List.mem_filter.mp ha
        have hne2 : key a ≠ g := of_decide_eq_true hne
        rcases List.mem_cons.mp (hcov a hmem) with h | h
        · exact absurd h hne2
        · exact h
      have hks := ih (l.filter fun a => key a ≠ g) (List.nodup_cons.mp hnd).2 hcov2
      have hfeq : (l.filter fun a => key a ≠ g) = l.filter fun a => !(decide (key a = g)) :=
        List.filter_congr fun a _ => by simp
      rw [hcongr, hfeq]
      exact List.Perm.trans (List.Perm.append_left _ (hfeq ▸ hks))
        (List.filter_append_perm (fun a => key a = g) l)

theorem mem_genderKeys (rs : List AugRecord) (g : ℤ) :
    g ∈ genderKeys rs ↔ ∃ r ∈ rs, r.gender = g := by
  simp [genderKeys, List.mem_insertionSort, List.mem_dedup, List.mem_map]

theorem nodup_genderKeys (rs : List AugRecord) : (genderKeys rs).Nodup := by
  unfold genderKeys
  exact ((List.perm_insertionSort _ _).nodup_iff).mpr (List.nodup_dedup _)

theorem sorted_lt_genderKeys (rs : List AugRecord) :
    (genderKeys rs).Pairwise fun a b => a < b := by
  have hs : (genderKeys rs).Pairwise fun a b => a ≤ b := List.sorted_insertionSort _ _
  have hn : (genderKeys rs).Nodup := nodup_genderKeys rs
  exact (hs.and hn).imp fun h => lt_of_le_of_ne h.1 h.2

theorem computeEngagement_filter (rs : List Record) (g : ℤ) :
    (computeEngagement rs).filter (fun r => r.gender = g)
      = computeEngagement (rs.filter fun r => r.gender = g) := by
  unfold computeEngagement
  rw [List.filter_map]
  rfl

theorem mem_genderKeys_compute (rs : List Record) (g : ℤ) :
    g ∈ genderKeys (computeEngagement rs) ↔ ∃ r ∈ rs, r.gender = g := by
  rw [mem_genderKeys]
  simp [computeEngagement]

theorem labelEncodeGender_eq_some {df : DataFrame} {i : ℕ}
    (hi : df.cols.findIdx? (fun c => c = "gender") = some i) :
    labelEncodeGender df =
      match uniqueClasses (df.rows.filterMap fun row => row.get? i) with
      | .error e => .error e
      | .ok classes =>
          .ok ⟨df.cols, df.rows.map (modifyIdx (fun c => Cell.num (idxOf c classes)) i)⟩ := by
  unfold labelEncodeGender
  rw [hi]

theorem addEngajamento_eq {df : DataFrame} (i j : ℕ)
    (hc : df.cols.findIdx? (fun c => c = "clicks") = some i)
    (hi : df.cols.findIdx? (fun c => c = "impressions") = some j)
    (hE : df.cols.findIdx? (fun c => c = "Engajamento") = none) :
    addEngajamento df = .ok ⟨df.cols ++ ["Engajamento"],
      df.rows.map fun row =>
        row ++ [cellMulQ (cellDiv (row.getD i Cell.nan) (row.getD j Cell.nan)) 100]⟩ := by
  unfold addEngajamento
  rw [hc, hi, hE]

theorem cpc_formula (S C : ℚ) (h : C ≠ 0) :
    cellRound2 (cellDiv (Cell.num S) (Cell.num C)) = Cell.num (round2 (S / C)) := by
  simp only [cellDiv]
  rw [if_neg h]
  rfl

theorem cpm_formula (S I : ℚ) (h : I ≠ 0) :
    cellRound2 (cellMulQ (cellDiv (Cell.num S) (Cell.num I)) 1000)
      = Cell.num (round2 (1000 * S / I)) := by
  simp only [cellDiv]
  rw [if_neg h]
  simp only [cellMulQ, cellRound2]
  have harith : S / I * 1000 = 1000 * S / I := by ring
  rw [harith]
  rfl

/-! The claims. -/

/-- C2 (counterexample): on a record with `impressions = 0` and `clicks = 10`
the code raises nothing — line 128 silently produces `inf` for the record's
`Engajamento`, refuting "raises a DivisionByZeroError instead of producing
zero, infinity, or NaN". -/
theorem claim_C2_counterexample :
    engajamentoRate ⟨0, 10, 0, 0, 0, "30-34"⟩ = Cell.inf := by
  norm_num [engajamentoRate, cellDiv, cellMulQ]

/-- C2 (amended): on a record with `impressions = 0` the engine does not
raise; line 128 produces `inf` when `clicks > 0`, `-inf` when `clicks < 0`,
and `NaN` when `clicks = 0` (no `DivisionByZeroError` exists anywhere in the
script). -/
theorem claim_C2 (r : Record) (h : r.impressions = 0) :
    engajamentoRate r =
      if 0 < r.clicks then Cell.inf
      else if r.clicks < 0 then Cell.neginf
      else Cell.nan := by
  by_cases h1 : 0 < r.clicks
  · rw [if_pos h1]
    exact engajamentoRate_inf r h h1
  · rw [if_neg h1]
    by_cases h2 : r.clicks < 0
    · rw [if_pos h2]
      unfold engajamentoRate
      rw [h]
      simp only [cellDiv]
      rw [if_pos trivial, if_neg h1, if_pos h2]
      simp only [cellMulQ]
      norm_num
    · rw [if_neg h2]
      exact engajamentoRate_nan r h (le_antisymm (not_lt.mp h1) (not_lt.mp h2))

/-- C2 (witness): the amended statement evaluated on the zero-impressions
record with 10 clicks. -/
theorem claim_C2_witness :
    engajamentoRate ⟨0, 10, 0, 0, 0, "30-34"⟩ =
      if 0 < (10 : ℚ) then Cell.inf
      else if (10 : ℚ) < 0 then Cell.neginf
      else Cell.nan :=
  claim_C2 ⟨0, 10, 0, 0, 0, "30-34"⟩ rfl

/-- C3: on a record with nonzero impressions line 128 yields exactly
`100 * clicks / impressions` (in particular 5.0 on impressions 200, clicks
10), and the `Engajamento` a group reports is the equally-weighted
arithmetic mean of the per-row rates — shown to differ from the ratio of
summed clicks to summed impressions on `doisRegistros`. -/
theorem claim_C3 :
    (∀ r : Record, r.impressions ≠ 0 →
        engajamentoRate r = Cell.num (100 * r.clicks / r.impressions))
    ∧ engajamentoRate ⟨200, 10, 0, 0, 0, "30-34"⟩ = Cell.num 5
    ∧ (∀ (rs : List Record) (row : GroupRow), row ∈ calcular_metricas_demograficas rs →
        (∀ r ∈ rs, r.gender = row.gender → r.impressions ≠ 0) →
        row.engajamento = Cell.num
          ((((rs.filter fun r => r.gender = row.gender).map fun r =>
              100 * r.clicks / r.impressions).sum)
            / ((rs.filter fun r => r.gender = row.gender).length)))
    ∧ ((calcular_metricas_demograficas doisRegistros).map fun row => row.engajamento)
        = [Cell.num (11/2)]
    ∧ (11 : ℚ)/2 ≠ 100 * (10 + 3) / (100 + 300) := by
  refine ⟨engajamentoRate_of_ne_zero, ?_, ?_, ?_, by norm_num⟩
  · norm_num [engajamentoRate, cellDiv, cellMulQ]
  · intro rs row hrow hnz
    obtain ⟨g, hg, rfl⟩ := List.mem_map.mp hrow
    have hgen : (groupSummary (computeEngagement rs) g).gender = g := rfl
    rw [hgen] at hnz
    obtain ⟨r0, hr0, hr0g⟩ := (mem_genderKeys_compute rs g).mp hg
    have hproj : (groupSummary (computeEngagement rs) g).engajamento =
        cellMean (((computeEngagement rs).filter fun r => r.gender = g).map
          fun r => r.engajamento) := rfl
    rw [hgen, hproj, computeEngagement_filter]
    have hcells : ((computeEngagement (rs.filter fun r => r.gender = g)).map
          fun r => r.engajamento)
        = ((rs.filter fun r => r.gender = g).map fun r =>
            100 * r.clicks / r.impressions).map Cell.num := by
      unfold computeEngagement
      rw [List.map_map, List.map_map]
      apply List.map_congr_left
      intro r hr
      have hrg : r.gender = g := of_decide_eq_true (List.mem_filter.mp hr).2
      exact engajamentoRate_of_ne_zero r (hnz r (List.mem_filter.mp hr).1 hrg)
    rw [hcells, cellMean_map_num _ ?hne, List.length_map]
    case hne =>
      have : r0 ∈ rs.filter fun r => r.gender = g :=
        List.mem_filter.mpr ⟨hr0, decide_eq_true hr0g⟩
      exact List.ne_nil_of_mem (List.mem_map_of_mem _ this)
  · simp only [calcular_metricas_demograficas, computeEngagement, aggregateByGender,
      genderKeys, engajamentoRate, cellDiv, cellMulQ, List.map_cons, List.map_nil,
      List.insertionSort, List.orderedInsert, doisRegistros]
    norm_num [List.dedup_cons_of_mem, List.dedup_cons_of_not_mem]
    simp [groupSummary, cellMean, cellSum, cellAdd, cellDiv,
      List.filter_cons, List.filter_nil]
    norm_num

/-- C3 (witness): the per-record formula evaluated at impressions 200,
clicks 10, and the group-mean statement evaluated on `doisRegistros`. -/
theorem claim_C3_witness :
    engajamentoRate ⟨200, 10, 0, 0, 0, "30-34"⟩ = Cell.num (100 * 10 / 200) :=
  claim_C3.1 ⟨200, 10, 0, 0, 0, "30-34"⟩ (by norm_num)

/-- C7: `aggregateByGender` emits exactly one summary row per gender code
present in the input — no duplicates, no fabricated codes — in strictly
ascending gender-code order, independent of the order of the input rows. -/
theorem claim_C7 (rs : List AugRecord) :
    ((aggregateByGender rs).map fun row => row.gender).Nodup
    ∧ ((aggregateByGender rs).map fun row => row.gender).Pairwise (fun a b => a < b)
    ∧ ∀ g : ℤ, (g ∈ (aggregateByGender rs).map fun row => row.gender)
        ↔ ∃ r ∈ rs, r.gender = g := by
  have hmap : ((aggregateByGender rs).map fun row => row.gender) = genderKeys rs := by
    unfold aggregateByGender
    rw [List.map_map]
    exact (List.map_congr_left fun g _ => rfl).trans (List.map_id _)
  refine ⟨hmap ▸ nodup_genderKeys rs, hmap ▸ sorted_lt_genderKeys rs, fun g => ?_⟩
  rw [hmap, mem_genderKeys]

/-- C7 (witness): the membership characterisation evaluated at gender code 0
on a two-row input given in descending gender order. -/
theorem claim_C7_witness :
    0 ∈ ((aggregateByGender [⟨⟨300, 15, 9, 0, 1, "30-34"⟩, Cell.num 5⟩,
          ⟨⟨100, 10, 5, 0, 0, "30-34"⟩, Cell.num 10⟩]).map fun row => row.gender) :=
  (claim_C7 _).2.2 0 |>.mpr ⟨⟨⟨100, 10, 5, 0, 0, "30-34"⟩, Cell.num 10⟩, by simp, rfl⟩

/-- C8: aggregation conserves totals — the group rows' `impressions` sum to
the input's total impressions, and the groups partition the input rows
(no row lost or duplicated). -/
theorem claim_C8 (rs : List Record) :
    ((calcular_metricas_demograficas rs).map fun row => row.impressions).sum
        = (rs.map fun r => r.impressions).sum
    ∧ ((genderKeys (computeEngagement rs)).flatMap fun g =>
        (computeEngagement rs).filter fun r => r.gender = g).Perm
          (computeEngagement rs) := by
  have hperm := flatMap_filter_key_perm (fun r : AugRecord => r.gender)
      (genderKeys (computeEngagement rs)) (computeEngagement rs)
      (nodup_genderKeys _) (fun a ha => (mem_genderKeys _ _).mpr ⟨a, ha, rfl⟩)
  refine ⟨?_, hperm⟩
  have h1 : (calcular_metricas_demograficas rs).map (fun row => row.impressions)
      = (genderKeys (computeEngagement rs)).map fun g =>
          (((computeEngagement rs).filter fun r => r.gender = g).map
            fun r => r.impressions).sum := by
    unfold calcular_metricas_demograficas aggregateByGender
    rw [List.map_map]
    exact List.map_congr_left fun g _ => rfl
  rw [h1]
  have h2 : ((computeEngagement rs).map fun r => r.impressions)
      = rs.map fun r => r.impressions := by
    unfold computeEngagement
    rw [List.map_map]
    rfl
  rw [← h2]
  have hs : ((((genderKeys (computeEngagement rs)).flatMap fun g =>
        (computeEngagement rs).filter fun r => r.gender = g)).map
          fun r => r.impressions).sum
      = ((computeEngagement rs).map fun r => r.impressions).sum :=
    (hperm.map fun r => r.impressions).sum_eq
  rw [List.map_flatMap, List.flatMap_def, List.sum_flatten, List.map_map] at hs
  simpa [Function.comp] using hs

/-- C1 (counterexample): on `registroZero` (impressions 0, clicks 5, spent 1,
conversions 0) no division raises: the record's `inf` engagement flows into
the group's reported mean engagement, and the cost per conversion of the
executive summary is `inf` — refuting "every division ... has an explicit
zero-denominator guard" and "for no input does a division produce an
unguarded NaN/Inf result that flows into downstream aggregates". -/
theorem claim_C1_counterexample :
    ((calcular_metricas_demograficas registroZero).map fun row => row.engajamento)
        = [Cell.inf]
    ∧ (gerar_resumo_executivo registroZero).custo_por_conversao = Cell.inf := by
  constructor
  · simp only [calcular_metricas_demograficas, computeEngagement, aggregateByGender,
      genderKeys, engajamentoRate, cellDiv, cellMulQ, List.map_cons, List.map_nil,
      List.insertionSort, List.orderedInsert, registroZero]
    norm_num [List.dedup_cons_of_mem, List.dedup_cons_of_not_mem]
    simp [groupSummary, cellMean, cellSum, cellAdd, cellDiv,
      List.filter_cons, List.filter_nil]
  · norm_num [gerar_resumo_executivo, registroZero, cellDiv]

/-- C1 (amended): no division in the engine is guarded. A zero denominator
silently produces an IEEE special value which flows downstream: a record
with zero impressions and positive clicks gets `inf` engagement (1); that
`inf` reaches the reported group mean (2); a group with zero summed clicks
and positive spend reports CPC = `inf` (3); zero total conversions with
positive spend make the cost per conversion `inf` (4); zero total
impressions with positive clicks make the overall CTR `inf` (5). -/
theorem claim_C1 :
    (∀ r : Record, r.impressions = 0 → 0 < r.clicks → engajamentoRate r = Cell.inf)
    ∧ (∀ (rs : List Record) (r : Record), r ∈ rs → r.impressions = 0 → 0 < r.clicks →
        (∀ r2 ∈ rs, 0 ≤ r2.clicks) →
        ∃ row ∈ calcular_metricas_demograficas rs,
          row.gender = r.gender ∧ row.engajamento = Cell.inf)
    ∧ (∀ (rs : List AugRecord) (row : GroupRow), row ∈ aggregateByGender rs →
        row.clicks = 0 → 0 < row.spent → row.CPC = Cell.inf)
    ∧ (∀ rs : List Record, (gerar_resumo_executivo rs).total_conversoes = 0 →
        0 < (gerar_resumo_executivo rs).total_gastos →
        (gerar_resumo_executivo rs).custo_por_conversao = Cell.inf)
    ∧ (∀ rs : List Record, (gerar_resumo_executivo rs).total_impressoes = 0 →
        0 < (gerar_resumo_executivo rs).total_cliques →
        (gerar_resumo_executivo rs).ctr_geral = Cell.inf) := by
  refine ⟨fun r h0 hc => engajamentoRate_inf r h0 hc, ?_, ?_, ?_, ?_⟩
  · intro rs r hr h0 hc hall
    refine ⟨groupSummary (computeEngagement rs) r.gender,
      List.mem_map_of_mem _ ((mem_genderKeys_compute rs r.gender).mpr ⟨r, hr, rfl⟩),
      rfl, ?_⟩
    have hproj : (groupSummary (computeEngagement rs) r.gender).engajamento =
        cellMean (((computeEngagement rs).filter fun x => x.gender = r.gender).map
          fun x => x.engajamento) := rfl
    rw [hproj, computeEngagement_filter]
    apply cellMean_with_inf
    · intro c hcell
      obtain ⟨x, hx, rfl⟩ := List.mem_map.mp hcell
      obtain ⟨r2, hr2, rfl⟩ := List.mem_map.mp hx
      show engajamentoRate r2 = Cell.inf ∨ (∃ q, engajamentoRate r2 = Cell.num q)
        ∨ engajamentoRate r2 = Cell.nan
      by_cases hi : r2.impressions = 0
      · rcases lt_or_eq_of_le (hall r2 (List.mem_filter.mp hr2).1) with hlt | heq
        · exact Or.inl (engajamentoRate_inf r2 hi hlt)
        · exact Or.inr (Or.inr (engajamentoRate_nan r2 hi heq.symm))
      · exact Or.inr (Or.inl ⟨_, engajamentoRate_of_ne_zero r2 hi⟩)
    · have hrmem : r ∈ rs.filter fun x => x.gender = r.gender :=
        List.mem_filter.mpr ⟨hr, decide_eq_true rfl⟩
      have : engajamentoRate r ∈
          ((computeEngagement (rs.filter fun x => x.gender = r.gender)).map
            fun x => x.engajamento) := by
        unfold computeEngagement
        rw [List.map_map]
        exact List.mem_map_of_mem _ hrmem
      rwa [engajamentoRate_inf r h0 hc] at this
  · intro rs row hrow h0 hs
    obtain ⟨g, hg, rfl⟩ := List.mem_map.mp hrow
    have hc : ((rs.filter fun r => r.gender = g).map fun r => r.clicks).sum = 0 := h0
    have hsp : (0:ℚ) < ((rs.filter fun r => r.gender = g).map fun r => r.spent).sum := hs
    show cellRound2 (cellDiv
        (Cell.num ((rs.filter fun r => r.gender = g).map fun r => r.spent).sum)
        (Cell.num ((rs.filter fun r => r.gender = g).map fun r => r.clicks).sum))
      = Cell.inf
    rw [hc]
    simp only [cellDiv]
    rw [if_pos trivial, if_pos hsp]
    rfl
  · intro rs h0 hg
    have h0x : (rs.map fun r => r.total_conversion).sum = 0 := h0
    have hgx : (0:ℚ) < (rs.map fun r => r.spent).sum := hg
    show cellDiv (Cell.num ((rs.map fun r => r.spent).sum))
        (Cell.num ((rs.map fun r => r.total_conversion).sum)) = Cell.inf
    rw [h0x]
    simp only [cellDiv]
    rw [if_pos trivial, if_pos hgx]
  · intro rs h0 hc
    have h0x : (rs.map fun r => r.impressions).sum = 0 := h0
    have hcx : (0:ℚ) < (rs.map fun r => r.clicks).sum := hc
    show cellMulQ (cellDiv (Cell.num ((rs.map fun r => r.clicks).sum))
        (Cell.num ((rs.map fun r => r.impressions).sum))) 100 = Cell.inf
    rw [h0x]
    simp only [cellDiv]
    rw [if_pos trivial, if_pos hcx]
    simp only [cellMulQ]
    norm_num

/-- C1 (witness): the unguarded per-record division evaluated at a record
with zero impressions and seven clicks. -/
theorem claim_C1_witness :
    engajamentoRate ⟨0, 7, 0, 0, 1, "40-44"⟩ = Cell.inf :=
  claim_C1.1 ⟨0, 7, 0, 0, 1, "40-44"⟩ rfl (by norm_num)

/-- C9 (counterexample): on `registroCpc` the group CPC is 1/8 = 0.125; the
code's `.round(2)` gives 0.12 (ties to even), while the half-up rounding the
claim asserts would give 0.13. -/
theorem claim_C9_counterexample :
    ((calcular_metricas_demograficas registroCpc).map fun row => row.CPC)
        = [Cell.num (12/100)]
    ∧ round2HalfUpSpec (1/8) = 13/100
    ∧ (12 : ℚ)/100 ≠ 13/100 := by
  refine ⟨?_, by norm_num [round2HalfUpSpec], by norm_num⟩
  simp only [calcular_metricas_demograficas, computeEngagement, aggregateByGender,
    genderKeys, engajamentoRate, cellDiv, cellMulQ, List.map_cons, List.map_nil,
    List.insertionSort, List.orderedInsert, registroCpc]
  norm_num [List.dedup_cons_of_mem, List.dedup_cons_of_not_mem]
  simp [groupSummary, cellMean, cellSum, cellAdd, cellDiv, cellRound2,
    List.filter_cons, List.filter_nil]
  norm_num [roundHalfEven, Int.fract]

/-- C9 (amended): for every group with nonzero summed clicks and
impressions, `CPC = round2(spent/clicks)` and
`CPM = round2(1000*spent/impressions)` where `round2` rounds to two decimal
places with ties to even (the NumPy rounding, not the spec's half-up); on
the worked example the stated values 0.5/50.0 and 0.6/30.0 hold. -/
theorem claim_C9 :
    (∀ (rs : List AugRecord) (row : GroupRow), row ∈ aggregateByGender rs →
        row.clicks ≠ 0 → row.impressions ≠ 0 →
        row.CPC = Cell.num (round2 (row.spent / row.clicks))
          ∧ row.CPM = Cell.num (round2 (1000 * row.spent / row.impressions)))
    ∧ calcular_metricas_demograficas exemploRegistros =
        [⟨0, 300, 30, Cell.num 10, 0, 15, Cell.num (1/2), Cell.num 50⟩,
         ⟨1, 300, 15, Cell.num 5, 0, 9, Cell.num (3/5), Cell.num 30⟩] := by
  constructor
  · intro rs row hrow hclicks himpr
    obtain ⟨g, hg, rfl⟩ := List.mem_map.mp hrow
    exact ⟨cpc_formula _ _ hclicks, cpm_formula _ _ himpr⟩
  · simp only [calcular_metricas_demograficas, computeEngagement, aggregateByGender,
      genderKeys, engajamentoRate, cellDiv, cellMulQ, List.map_cons, List.map_nil,
      List.insertionSort, List.orderedInsert, exemploRegistros]
    norm_num [List.dedup_cons_of_mem, List.dedup_cons_of_not_mem, List.filter_cons, List.filter_nil]
    constructor <;>
    · simp [groupSummary, cellMean, cellSum, cellAdd, cellDiv, cellMulQ, cellRound2,
        List.filter_cons, List.filter_nil]
      norm_num [roundHalfEven, Int.fract]

/-- C9 (witness): the amended CPC/CPM formulas evaluated on the group of
`registroCpc`. -/
theorem claim_C9_witness :
    (groupSummary (computeEngagement registroCpc) 0).CPC
        = Cell.num (round2 ((groupSummary (computeEngagement registroCpc) 0).spent
            / (groupSummary (computeEngagement registroCpc) 0).clicks))
    ∧ (groupSummary (computeEngagement registroCpc) 0).CPM
        = Cell.num (round2 (1000 * (groupSummary (computeEngagement registroCpc) 0).spent
            / (groupSummary (computeEngagement registroCpc) 0).impressions)) :=
  claim_C9.1 (computeEngagement registroCpc) _
    (List.mem_map_of_mem _ (by decide))
    (by norm_num [groupSummary, computeEngagement, registroCpc, engajamentoRate])
    (by norm_num [groupSummary, computeEngagement, registroCpc, engajamentoRate])

/-- C4 (counterexample): a frame whose gender column contains "other" is
cleaned without any error — `LabelEncoder` silently encodes the third
category as code 2 — refuting "fails with a DataValidationError". -/
theorem claim_C4_counterexample :
    tratar_dados quadroOutro = Except.ok quadroOutroLimpo := by
  decide

/-- C4 (amended): the cleaner never validates gender values against a closed
set: whenever the gender column holds only strings, encoding succeeds —
whatever the strings are — assigning each distinct value its rank in sorted
order. No `DataValidationError` exists in the script. -/
theorem claim_C4 (df : DataFrame) (i : ℕ)
    (hi : df.cols.findIdx? (fun c => c = "gender") = some i)
    (hstr : ∀ c ∈ df.rows.filterMap (fun row => row.get? i), ∃ s, c = Cell.str s) :
    ∃ df2, labelEncodeGender df = Except.ok df2 := by
  have hall : ((df.rows.filterMap fun row => row.get? i).all
      fun c => (cellStr? c).isSome) = true := by
    rw [List.all_eq_true]
    intro c hc
    obtain ⟨s, rfl⟩ := hstr c hc
    rfl
  have hUC : ∃ classes, uniqueClasses (df.rows.filterMap fun row => row.get? i)
      = Except.ok classes := by
    unfold uniqueClasses
    rw [if_pos hall]
    exact ⟨_, rfl⟩
  obtain ⟨classes, hUC⟩ := hUC
  refine ⟨⟨df.cols, df.rows.map (modifyIdx (fun c => Cell.num (idxOf c classes)) i)⟩, ?_⟩
  rw [labelEncodeGender_eq_some hi, hUC]

/-- C4 (witness): the amended statement evaluated on a one-row frame whose
only gender value is "other". -/
theorem claim_C4_witness :
    ∃ df2, labelEncodeGender ⟨["gender"], [[Cell.str "other"]]⟩ = Except.ok df2 :=
  claim_C4 ⟨["gender"], [[Cell.str "other"]]⟩ 0 (by decide) (by
    intro c hc
    simp at hc
    exact ⟨"other", hc⟩)

/-- C5 (counterexample): on a frame whose only gender value is "male" the
encoder assigns male the code 0, not 1 — the mapping is derived from the
values present in the data, refuting "independent of which gender values
are present". -/
theorem claim_C5_counterexample :
    tratar_dados quadroMasculino = Except.ok ⟨["gender"], [[Cell.num 0]]⟩
    ∧ Cell.num 0 ≠ Cell.num 1 := by
  constructor <;> decide

/-- C5 (amended): the encoder assigns each distinct gender string its rank
in lexicographically sorted order of the values present. Whenever the
distinct values are exactly "female" and "male", the mapping is female = 0,
male = 1, independent of row order; with other value sets the codes follow
the sorted ranks instead. -/
theorem claim_C5 (df : DataFrame) (i : ℕ)
    (hi : df.cols.findIdx? (fun c => c = "gender") = some i)
    (hstr : ∀ c ∈ df.rows.filterMap (fun row => row.get? i), ∃ s, c = Cell.str s)
    (hdd : (((df.rows.filterMap fun row => row.get? i).filterMap cellStr?).dedup).Perm
      ["female", "male"]) :
    labelEncodeGender df = Except.ok ⟨df.cols,
        df.rows.map (modifyIdx (fun c =>
          Cell.num (idxOf c [Cell.str "female", Cell.str "male"])) i)⟩
    ∧ idxOf (Cell.str "female") [Cell.str "female", Cell.str "male"] = 0
    ∧ idxOf (Cell.str "male") [Cell.str "female", Cell.str "male"] = 1 := by
  have hall : ((df.rows.filterMap fun row => row.get? i).all
      fun c => (cellStr? c).isSome) = true := by
    rw [List.all_eq_true]
    intro c hc
    obtain ⟨s, rfl⟩ := hstr c hc
    rfl
  have hsort : (((df.rows.filterMap fun row => row.get? i).filterMap
        cellStr?).dedup).insertionSort (fun a b => strKey a ≤ strKey b)
      = ["female", "male"] := by
    rcases perm_pair_cases hdd with he | he <;> rw [he] <;> decide
  refine ⟨?_, by decide, by decide⟩
  have hUC : uniqueClasses (df.rows.filterMap fun row => row.get? i)
      = Except.ok [Cell.str "female", Cell.str "male"] := by
    unfold uniqueClasses
    rw [if_pos hall, hsort]
    rfl
  rw [labelEncodeGender_eq_some hi, hUC]

/-- C5 (witness): the amended statement evaluated on a two-row frame listing
the male row first: the encoding still maps female to 0 and male to 1. -/
theorem claim_C5_witness :
    labelEncodeGender ⟨["gender"], [[Cell.str "male"], [Cell.str "female"]]⟩
        = Except.ok ⟨["gender"], [[Cell.num 1], [Cell.num 0]]⟩
    ∧ idxOf (Cell.str "female") [Cell.str "female", Cell.str "male"] = 0
    ∧ idxOf (Cell.str "male") [Cell.str "female", Cell.str "male"] = 1 := by
  have h := claim_C5 ⟨["gender"], [[Cell.str "male"], [Cell.str "female"]]⟩ 0
    (by decide)
    (by
      intro c hc
      simp at hc
      rcases hc with rfl | rfl
      · exact ⟨"male", rfl⟩
      · exact ⟨"female", rfl⟩)
    (by decide)
  exact ⟨h.1.trans (by decide), h.2.1, h.2.2⟩

/-- C6 (counterexample): `tratar_dados` succeeds on `quadroBruto`, but
applying it again to the cleaned result raises a KeyError — the columns it
tries to drop no longer exist — so `clean` is not idempotent. -/
theorem claim_C6_counterexample :
    tratar_dados quadroBruto = Except.ok quadroBrutoLimpo
    ∧ tratar_dados quadroBrutoLimpo = Except.error PdError.keyError := by
  constructor <;> decide

/-- C6 (amended): `clean(clean(x))` never equals `clean(x)`: whenever
`tratar_dados` succeeds, running it again on its own output fails with a
KeyError, because `drop(columns=..., errors='raise')` no longer finds
`reporting_start`, `reporting_end`, `fb_campaign_id`. -/
theorem claim_C6 (df df2 : DataFrame) (h : tratar_dados df = Except.ok df2) :
    tratar_dados df2 = Except.error PdError.keyError := by
  have hcols : df2.cols = df.cols.filter fun c => c ∉ colunas_remover := by
    unfold tratar_dados at h
    rcases hdrop : dropColumns df colunas_remover with e | df1 <;> rw [hdrop] at h
    · simp at h
    · have h2 : labelEncodeGender (dropna df1) = Except.ok df2 := h
      have h1 : df2.cols = (dropna df1).cols := labelEncodeGender_cols h2
      have h1x : df2.cols = df1.cols := h1
      exact h1x.trans (dropColumns_ok_cols hdrop)
  have hmem : "reporting_start" ∉ df2.cols := by
    rw [hcols]
    intro hin
    exact of_decide_eq_true (List.mem_filter.mp hin).2 (by decide)
  have hcond : ¬ ∀ n ∈ colunas_remover, n ∈ df2.cols := fun hall =>
    hmem (hall "reporting_start" (by decide))
  unfold tratar_dados dropColumns
  rw [if_neg hcond]

/-- C6 (witness): the amended statement evaluated on `quadroBruto` and its
cleaned form. -/
theorem claim_C6_witness :
    tratar_dados quadroBrutoLimpo = Except.error PdError.keyError :=
  claim_C6 quadroBruto quadroBrutoLimpo (by decide)

/-- C10 (counterexample): `calcular_metricas_demograficas` is not pure in
its input: line 128 adds the `Engajamento` column to the caller's frame, so
after the call the cleaned dataset differs from what was passed in. -/
theorem claim_C10_counterexample :
    addEngajamento quadroLimpo = Except.ok quadroLimpoDepois
    ∧ quadroLimpoDepois ≠ quadroLimpo := by
  constructor
  · rw [addEngajamento_eq 1 0 (by decide) (by decide) (by decide)]
    norm_num [quadroLimpo, quadroLimpoDepois, cellDiv, cellMulQ,
      List.getD_cons_succ, List.getD_cons_zero]
  · decide

/-- C10 (amended): `tratar_dados` copies its input before mutating (line
76), but `calcular_metricas_demograficas` does not: whenever line 128 runs
on a frame without an `Engajamento` column, the caller's frame afterwards
carries that extra column — it is never equal to the frame that was passed
in. -/
theorem claim_C10 (df df2 : DataFrame) (hne : "Engajamento" ∉ df.cols)
    (h : addEngajamento df = Except.ok df2) :
    df2.cols = df.cols ++ ["Engajamento"] ∧ df2 ≠ df := by
  have hEnone : df.cols.findIdx? (fun c => c = "Engajamento") = none := by
    rw [List.findIdx?_eq_none_iff]
    intro x hx
    by_cases hxe : x = "Engajamento"
    · exact absurd (hxe ▸ hx) hne
    · simp [hxe]
  unfold addEngajamento at h
  rcases hc : df.cols.findIdx? (fun c => c = "clicks") with _ | i <;> rw [hc] at h
  · simp at h
  rcases hi : df.cols.findIdx? (fun c => c = "impressions") with _ | j <;> rw [hi] at h
  · simp at h
  rw [hEnone] at h
  simp only [Except.ok.injEq] at h
  subst h
  refine ⟨rfl, ?_⟩
  intro heq
  have hlen := congrArg (fun d => d.cols.length) heq
  simp at hlen

/-- C10 (witness): the amended statement evaluated on `quadroLimpo`. -/
theorem claim_C10_witness :
    quadroLimpoDepois.cols = quadroLimpo.cols ++ ["Engajamento"]
    ∧ quadroLimpoDepois ≠ quadroLimpo :=
  claim_C10 quadroLimpo quadroLimpoDepois (by decide)
    (by
      rw [addEngajamento_eq 1 0 (by decide) (by decide) (by decide)]
      norm_num [quadroLimpo, quadroLimpoDepois, cellDiv, cellMulQ,
        List.getD_cons_succ, List.getD_cons_zero])

end FacebookAds
